import Mathlib

/-!
Verification of the core of raspi-cd-player: the shared control state
(`src/state.rs`), the per-track extraction buffers (`src/read_cd.rs`), and
the playback pass (`src/play_song.rs`), shallowly embedded as executable
Lean definitions.
-/

set_option linter.unusedVariables false

namespace RaspiCd

/-- Modelled from the spec: the `Action` enum (its file `action.rs` is not part
of the sources given, only its users are): `Play(track)`, `Pause(track)`,
`Stop`, with a 1-based track identifier. -/
inductive Action where
  | play (track : Nat)
  | pause (track : Nat)
  | stop
  deriving DecidableEq, Repr

/-- The shared `PlayerState` of `src/state.rs`: the requested `action`, the
shared `state_changed` flag, the track count, and the contents of the bounded
wake channel (`flume::bounded(2)` in `main.rs`, here the list of pending unit
messages). -/
structure PState where
  action : Action
  state_changed : Bool
  total_tracks : Nat
  wake : List Unit
  deriving DecidableEq, Repr

/-- `Sender::try_send` on the capacity-2 flume channel of `main.rs`: appends
the message when the queue is below capacity and silently drops it otherwise
(the `let _ =` in `change_action` discards the result either way). -/
def trySend (q : List Unit) : List Unit :=
  if q.length < 2 then q ++ [()] else q

/-- `PlayerState::change_action`: store the new action, raise the shared
`state_changed` flag, and issue two best-effort sends on the wake channel. -/
def change_action (s : PState) (a : Action) : PState :=
  { s with action := a, state_changed := true, wake := trySend (trySend s.wake) }

/-- `PlayerState::next_track`: on `Play(track)` or `Pause(track)`, move to
`Play(track+1)` when `track+1 < total_tracks` and to `Stop` otherwise, via
`change_action`; on `Stop`, do nothing. -/
def next_track (s : PState) : PState :=
  match s.action with
  | .play track | .pause track =>
      let nt := track + 1
      let a := if nt < s.total_tracks then Action.play nt else Action.stop
      change_action s a
  | .stop => s

/-- `PlayerState::prev_track`: on `Play(track)` or `Pause(track)`, play
`track-1` when that is still at least 1, else stay on `track`; on `Stop`, do
nothing. -/
def prev_track (s : PState) : PState :=
  match s.action with
  | .play track | .pause track =>
      let pt := track - 1
      let track_to_play := if pt ≥ 1 then pt else track
      change_action s (Action.play track_to_play)
  | .stop => s

/-- Little-endian bytes of a 16-bit value, as written by `to_le_bytes`. -/
def le16 (n : Nat) : List Nat :=
  [n % 256, n / 256 % 256]

/-- Little-endian bytes of a 32-bit value, as written by `to_le_bytes`. -/
def le32 (n : Nat) : List Nat :=
  [n % 256, n / 256 % 256, n / 65536 % 256, n / 16777216 % 256]

/-- The byte rate constant of `Song::write_wav_header`:
`SAMPLERATE * BITDEPTH as u32 / 8`. -/
def BYTERATE : Nat := 44100 * 16 / 8

/-- `Song::write_wav_header` of `src/read_cd.rs`: the exact 44 bytes written
for a declared data payload of `bytes` (a u32). Field order: "RIFF", file size
minus 8, "WAVE", "fmt ", sub-chunk size 16, format 1, channels 2, sample rate
44100, the byte rate above, block align 4, bit depth 16, "data", payload
size. -/
def write_wav_header (bytes : Nat) : List Nat :=
  [82, 73, 70, 70] ++ le32 ((bytes + 44 - 8) % 4294967296)
    ++ [87, 65, 86, 69]
    ++ [102, 109, 116, 32] ++ le32 16
    ++ le16 1 ++ le16 2 ++ le32 44100 ++ le32 BYTERATE
    ++ le16 4 ++ le16 16
    ++ [100, 97, 116, 97] ++ le32 (bytes % 4294967296)

/-- The Rust cast `as u32` on an `i32` value: two's-complement wrap into
`[0, 2^32)`. -/
def u32cast (x : Int) : Nat := (x % 4294967296).toNat

/-- `CDIO_CD_FRAMESIZE_RAW`: bytes of one raw audio sector. -/
def FRAMESIZE : Nat := 2352

/-- `SEC` in `Song::read`: sectors per read burst. -/
def SEC : Nat := 52

/-- Bytes written per loop iteration of `Song::read`: the whole
`CDIO_CD_FRAMESIZE_RAW * SEC` buffer is written each time. -/
def burstBytes : Nat := FRAMESIZE * SEC

/-- A `Song` of `src/read_cd.rs`: one per-track extraction buffer. `fileLen`
models the backing file's length in bytes (header plus everything written so
far). -/
structure Song where
  track_id : Nat
  start_lsn : Int
  end_lsn : Int
  offset : Int
  ended : Bool
  fileLen : Nat
  deriving DecidableEq, Repr

/-- The declared data payload computed in `Song::new`:
`CDIO_CD_FRAMESIZE_RAW * (end_lsn - start_lsn) as u32`, in u32 arithmetic. -/
def songBytes (start_lsn end_lsn : Int) : Nat :=
  FRAMESIZE * u32cast (end_lsn - start_lsn) % 4294967296

/-- `Song::new`: a fresh buffer with zero offset, not ended, whose backing
file holds exactly the 44-byte container header for the declared payload. -/
def Song.new (track_id : Nat) (sec : Int × Int) : Song :=
  { track_id := track_id
    start_lsn := sec.1
    end_lsn := sec.2
    offset := 0
    ended := false
    fileLen := (write_wav_header (songBytes sec.1 sec.2)).length }

/-- The while-loop of `Song::read`. `flag i` is the value of the shared
`state_changed` flag at the i-th check. Each iteration issues one hardware
read of `SEC` sectors at `curr` (collected in the returned list), writes one
full burst, and advances `curr` by `(end_lsn - curr) % SEC + 1` (Rust `%` is
truncated remainder, `Int.tmod`). Returns the final `curr` and the issued
reads, in order. -/
def readLoopF : Nat → Int → (Nat → Bool) → Int → Nat → Int × List (Int × Nat)
  | 0, _, _, curr, _ => (curr, [])
  | fuel + 1, end_lsn, flag, curr, i =>
    if curr < end_lsn ∧ flag i = false then
      let next := curr + (end_lsn - curr).tmod 52 + 1
      let r := readLoopF fuel end_lsn flag next (i + 1)
      (r.1, (curr, SEC) :: r.2)
    else
      (curr, [])

/-- The loop of `Song::read`, with the fuel instantiated to the remaining
sector distance, which bounds the iteration count because every iteration
advances `curr` by at least one: when the fuel runs out, `curr` has already
reached `end_lsn` and the loop condition is false anyway. -/
def readLoop (end_lsn : Int) (flag : Nat → Bool) (curr : Int) (i : Nat) :
    Int × List (Int × Nat) :=
  readLoopF (end_lsn - curr).toNat end_lsn flag curr i

/-- `Song::read` (hardware reads always succeeding): start at
`start_lsn + offset`, run the burst loop, then either mark the song `ended`
(when `curr` reached `end_lsn`) or record the interrupted position in
`offset`. The backing file grows by one full burst per iteration. Returns the
updated song and the issued hardware reads. -/
def Song.read (s : Song) (flag : Nat → Bool) : Song × List (Int × Nat) :=
  let r := readLoop s.end_lsn flag (s.start_lsn + s.offset) 0
  let curr := r.1
  let fileLen := s.fileLen + r.2.length * burstBytes
  if curr ≥ s.end_lsn then
    ({ s with ended := true, fileLen := fileLen }, r.2)
  else
    ({ s with offset := curr, fileLen := fileLen }, r.2)

/-- The mutable part of `Reader` that the worker loop touches: the track
count, the per-track sector table `song_sectors`, and the cached `songs`
vector. A slot indexing that would panic in Rust is modelled as `none`. -/
structure ReaderSt where
  tracks : Nat
  song_sectors : List (Int × Int)
  songs : List Song
  deriving DecidableEq, Repr

/-- The cache-update part of the `Action::Play(track)` arm of
`Reader::handle`: when `track` differs from the primary slot's id, either
promote the secondary (`songs.remove(0)`) when it holds `track`, or clear
both slots and push a fresh buffer for `track`; then, when `track + 1` is
still below the track count, push a fresh look-ahead buffer. Out-of-bounds
indexing (`songs[0]`, `songs[1]`, `song_sectors[i]`) yields `none`. -/
def playStep (tracks : Nat) (sectors : List (Int × Int)) (songs : List Song)
    (track : Nat) : Option (List Song) :=
  match songs[0]? with
  | none => none
  | some s0 =>
    if track ≠ s0.track_id then
      match songs[1]? with
      | none => none
      | some s1 =>
        let pushNext : List Song → Option (List Song) := fun base =>
          if track + 1 < tracks then
            match sectors[track + 1 - 1]? with
            | none => none
            | some sec => some (base ++ [Song.new (track + 1) sec])
          else
            some base
        if track = s1.track_id then
          pushNext (songs.drop 1)
        else
          match sectors[track - 1]? with
          | none => none
          | some sec => pushNext [Song.new track sec]
    else
      some songs

/-- `Reader::read_cd`: if the primary is not yet ended, read it (with flag
trace `f1`); if that completed it and two songs are cached, read the
secondary (trace `f2`). Returns the updated songs and every hardware read
issued, in order. The trailing `wait_for_change` has no state effect. -/
def readCd (f1 f2 : Nat → Bool) (songs : List Song) :
    Option (List Song × List (Int × Nat)) :=
  match songs[0]? with
  | none => none
  | some s0 =>
    if s0.ended then
      some (songs, [])
    else
      let r0 := s0.read f1
      let songs1 := songs.set 0 r0.1
      if r0.1.ended ∧ songs1.length = 2 then
        match songs1[1]? with
        | none => none
        | some s1 =>
          let r1 := s1.read f2
          some (songs1.set 1 r1.1, r0.2 ++ r1.2)
      else
        some (songs1, r0.2)

/-- One iteration of the `Reader::handle` loop for a snapshot `a` of the
action: `Stop` breaks and `Pause` waits, both leaving the cache unchanged;
`Play(track)` runs the cache update and then `read_cd`. -/
def handleStep (r : ReaderSt) (a : Action) (f1 f2 : Nat → Bool) :
    Option ReaderSt :=
  match a with
  | .stop => some r
  | .pause _ => some r
  | .play track =>
      match playStep r.tracks r.song_sectors r.songs track with
      | none => none
      | some songs1 =>
        match readCd f1 f2 songs1 with
        | none => none
        | some r2 => some { r with songs := r2.1 }

/-- `Reader::new` (device calls succeeding): `tracks` is
`last_track - first_track + 1` as reported by the library, `song_sectors` is
built over the Rust range `first_track..last_track - 1` from the table of
contents (`lsn i` standing for `cdio_msf_to_lsn(toc[i])`), and the initial
cache indexes `song_sectors[0]` — and `song_sectors[1]` when more than one
track is present — so those indexings may fail (`none` models the Rust
panic). -/
def readerNew (first_track last_track : Nat) (lsn : Nat → Int) :
    Option ReaderSt :=
  let tracks := last_track - first_track + 1
  let song_sectors :=
    (List.range' first_track (last_track - 1 - first_track)).map
      (fun i => (lsn i, lsn (i + 1)))
  let songs? : Option (List Song) :=
    if tracks > 1 then
      match song_sectors[0]?, song_sectors[1]? with
      | some a, some b => some [Song.new 1 a, Song.new 2 b]
      | _, _ => none
    else
      match song_sectors[0]? with
      | some a => some [Song.new 1 a]
      | none => none
  match songs? with
  | none => none
  | some songs =>
      some { tracks := tracks, song_sectors := song_sectors, songs := songs }

/-- States of the extraction worker reachable from a successful `Reader::new`
by any sequence of handled actions (with arbitrary flag traces). -/
inductive Reachable (first_track last_track : Nat) (lsn : Nat → Int) :
    ReaderSt → Prop where
  | init (r : ReaderSt) (h : readerNew first_track last_track lsn = some r) :
      Reachable first_track last_track lsn r
  | step (r r' : ReaderSt) (a : Action) (f1 f2 : Nat → Bool)
      (hr : Reachable first_track last_track lsn r)
      (h : handleStep r a f1 f2 = some r') :
      Reachable first_track last_track lsn r'

/-- A `format.next_packet()` outcome in `Player::play`: either an error —
end-of-stream and any other format-reader failure arrive through the same
`Err` arm — or a packet, carrying the outcome of the two fallible calls the
loop body then makes on it: `decoded` is the result of
`self.decoder.decode(&packet)` (`none` for `Err`, `some frames` for `Ok`) and
`writeOk` the success of `self.audio_output.write(decoded)`; both calls are
`.unwrap()`ed in the source, so their `Err` is a panic. -/
inductive PacketRes where
  | packet (decoded : Option Nat) (writeOk : Bool)
  | err
  deriving DecidableEq, Repr

/-- The loop of `Player::play`: each iteration first checks the shared
`state_changed` flag (trace `flag`) and breaks with `false` if it is set;
otherwise it pulls the next packet, breaking with `true` on the error arm
(also reached when the stream is exhausted, since the format reader then
returns an error); on a packet it runs `decoder.decode(..).unwrap()` and
`audio_output.write(..).unwrap()`, either of whose `Err` panics — modelled
as `none`. `some` carries the `song_finished` flag and the frames written. -/
def playLoop (flag : Nat → Bool) : Nat → List PacketRes → Option (Bool × List Nat)
  | i, stream =>
    if flag i then
      some (false, [])
    else
      match stream with
      | [] => some (true, [])
      | .err :: _ => some (true, [])
      | .packet none _ :: _ => none
      | .packet (some _) false :: _ => none
      | .packet (some f) true :: rest =>
          match playLoop flag (i + 1) rest with
          | none => none
          | some r => some (r.1, f :: r.2)

/-- `Player::play`: run the loop, then flush the audio output — unless the
loop panicked, in which case the panic unwinds straight out of the pass and
the flush is never reached. The third component records the flush. -/
def play (flag : Nat → Bool) (stream : List PacketRes) :
    Option (Bool × List Nat × Bool) :=
  match playLoop flag 0 stream with
  | none => none
  | some r => some (r.1, r.2, true)

theorem trySend_length (q : List Unit) :
    (trySend q).length = if q.length < 2 then q.length + 1 else q.length := by
  simp only [trySend]
  split_ifs <;> simp

/-- C4: `next_track` sends `Play(t)` or `Pause(t)` to `Play(t+1)` when
`t + 1 < total_tracks` and to `Stop` otherwise, and leaves the state
untouched on `Stop`. -/
theorem next_track_spec (s : PState) :
    (∀ t, s.action = Action.play t ∨ s.action = Action.pause t →
      (next_track s).action =
        if t + 1 < s.total_tracks then Action.play (t + 1) else Action.stop)
    ∧ (s.action = Action.stop → next_track s = s) := by
  constructor
  · intro t ht
    rcases ht with h | h <;> simp [next_track, h, change_action]
  · intro h
    simp [next_track, h]

/-- C4 witness: with three tracks and the worker on `Play(3)`, advancing
yields `Stop`, not `Play(4)`. -/
theorem next_track_spec_witness :
    (next_track ⟨Action.play 3, false, 3, []⟩).action = Action.stop := by
  have h := (next_track_spec ⟨Action.play 3, false, 3, []⟩).1 3 (Or.inl rfl)
  simpa using h

/-- C9: `prev_track` sends `Play(t)` or `Pause(t)` to `Play(t-1)` when
`t > 1` and stays on the current track otherwise. -/
theorem prev_track_spec (s : PState) (t : Nat) (h1 : 1 ≤ t)
    (h : s.action = Action.play t ∨ s.action = Action.pause t) :
    (prev_track s).action = Action.play (if 1 < t then t - 1 else t) := by
  rcases h with h | h <;>
  · simp only [prev_track, h, change_action]
    congr 1
    split_ifs <;> omega

/-- C9 witness: from `Play(1)` the backward skip stays at `Play(1)`. -/
theorem prev_track_spec_witness :
    (prev_track ⟨Action.play 1, false, 3, []⟩).action =
      Action.play (if 1 < 1 then 1 - 1 else 1) :=
  prev_track_spec ⟨Action.play 1, false, 3, []⟩ 1 (by decide) (Or.inl rfl)

/-- C7: `change_action` stores the new action, raises the shared changed
flag, posts at most two wake messages, leaves a saturated capacity-2 channel
untouched (the extra posts are dropped, never an error), and never grows the
channel beyond its capacity. It is a total function: it always succeeds. -/
theorem change_action_spec (s : PState) (a : Action) :
    (change_action s a).action = a
    ∧ (change_action s a).state_changed = true
    ∧ (change_action s a).wake.length ≤ s.wake.length + 2
    ∧ (s.wake.length = 2 → (change_action s a).wake = s.wake)
    ∧ (s.wake.length ≤ 2 → (change_action s a).wake.length ≤ 2) := by
  refine ⟨rfl, rfl, ?_, ?_, ?_⟩
  · simp only [change_action]
    rw [trySend_length, trySend_length]
    split_ifs <;> omega
  · intro hfull
    have h1 : trySend s.wake = s.wake := by simp [trySend, hfull]
    simp only [change_action, h1]
  · intro hle
    simp only [change_action]
    rw [trySend_length, trySend_length]
    split_ifs <;> omega

/-- C7 witness: two rapid `change_action` posts on an already-full wake
channel leave it exactly as it was. -/
theorem change_action_spec_witness :
    (change_action ⟨Action.stop, false, 0, [(), ()]⟩ (Action.play 1)).wake
      = [(), ()] :=
  (change_action_spec ⟨Action.stop, false, 0, [(), ()]⟩ (Action.play 1)).2.2.2.1
    (by decide)

/-- C2 (failing input): for the track with sector range `(100, 204)`, an
extraction pass interrupted after its first burst records the absolute
position 101 in `offset` (not the relative offset 1), so the resumed pass
restarts at `start_lsn + offset = 201`, skips sectors 101–200, and completes
with 44 + 2·122304 bytes in the backing file, whereas the uninterrupted run
writes 44 + 3·122304 bytes: the interrupted-then-resumed byte count differs
from the uninterrupted one. -/
theorem interrupted_resume_byte_mismatch :
    ((Song.new 1 (100, 204)).read (fun _ => false)).1.ended = true
    ∧ ((Song.new 1 (100, 204)).read (fun _ => false)).1.fileLen = 366956
    ∧ ((Song.new 1 (100, 204)).read (fun i => decide (i ≠ 0))).1.ended = false
    ∧ ((Song.new 1 (100, 204)).read (fun i => decide (i ≠ 0))).1.offset = 101
    ∧ (((Song.new 1 (100, 204)).read (fun i => decide (i ≠ 0))).1.read
        (fun _ => false)).1.ended = true
    ∧ (((Song.new 1 (100, 204)).read (fun i => decide (i ≠ 0))).1.read
        (fun _ => false)).1.fileLen = 244652
    ∧ (244652 : Nat) ≠ 366956 := by decide

/-- C5 (failing input): for the 52-sector range `(0, 52)` the header declares
`52 * 2352 = 122304` data bytes, but the completed extraction leaves the
backing file at `44 + 2 * 122304 = 244652` bytes — the loop writes a full
52-sector buffer on every iteration and iterates `N / 52 + 1` times — so the
file length at completion is not header size plus declared data length. -/
theorem file_length_header_mismatch :
    songBytes 0 52 = 52 * 2352
    ∧ ((Song.new 1 (0, 52)).read (fun _ => false)).1.ended = true
    ∧ ((Song.new 1 (0, 52)).read (fun _ => false)).1.fileLen = 244652
    ∧ (244652 : Nat) ≠ 44 + songBytes 0 52 := by decide

/-- C6 (failing input): the 44-byte header for a payload of 8 bytes carries
every field the claim lists — RIFF size `payload + 36`, fmt size 16, format
1, channels 2, sample rate 44100, block align 4, bit depth 16, data size
`payload` — except the byte rate: the code computes
`44100 * 16 / 8 = 88200`, not the standard stereo rate
`44100 * 2 * 16 / 8 = 176400`. -/
theorem wav_header_byte_rate :
    write_wav_header 8 =
      [82, 73, 70, 70] ++ le32 (8 + 36) ++ [87, 65, 86, 69]
        ++ [102, 109, 116, 32] ++ le32 16 ++ le16 1 ++ le16 2 ++ le32 44100
        ++ le32 88200 ++ le16 4 ++ le16 16 ++ [100, 97, 116, 97] ++ le32 8
    ∧ (write_wav_header 8).length = 44
    ∧ BYTERATE = 88200
    ∧ le32 88200 ≠ le32 176400 := by decide

/-- C8 counterexample: a pass whose very first packet fails to decode — the
shared changed flag unset throughout, so nothing else can interrupt — does
not return the natural-finish result and never reaches the flush: the
`decoder.decode(&packet).unwrap()` panic propagates out of the pass, so
decode errors are not treated like end-of-stream. -/
theorem decode_error_panics :
    play (fun _ => false) [PacketRes.packet none true] = none := by decide

theorem playLoop_reader_err (flag : Nat → Bool) (hflag : ∀ i, flag i = false) :
    ∀ (pre : List Nat) (i : Nat) (rest : List PacketRes),
      playLoop flag i
          (pre.map (fun f => PacketRes.packet (some f) true)
            ++ PacketRes.err :: rest)
        = some (true, pre)
      ∧ playLoop flag i (pre.map (fun f => PacketRes.packet (some f) true))
        = some (true, pre) := by
  intro pre
  induction pre with
  | nil =>
      intro i rest
      simp [playLoop, hflag i]
  | cons f pre ih =>
      intro i rest
      have h := ih (i + 1) rest
      simp [playLoop, hflag i, h.1, h.2]

/-- C8 (amended): in `Player::play`, an error from the format reader's
`next_packet` — the same arm through which natural end-of-stream is
delivered — is treated exactly like end-of-stream: with the shared changed
flag unset throughout and every packet decoding and writing successfully, a
stream of `pre` packets followed by a reader error produces exactly the
result of the stream that simply ends after `pre` packets — the pass writes
the same frames, flushes the sink, returns `true` (track naturally finished,
so the caller proceeds to track advancement), and no failure escapes.
Errors from `decoder.decode` or the sink write, by contrast, panic
(see the counterexample). -/
theorem reader_error_like_eos (flag : Nat → Bool) (pre : List Nat)
    (rest : List PacketRes) (hflag : ∀ i, flag i = false) :
    play flag (pre.map (fun f => PacketRes.packet (some f) true)
        ++ PacketRes.err :: rest)
      = some (true, pre, true)
    ∧ play flag (pre.map (fun f => PacketRes.packet (some f) true))
      = some (true, pre, true) := by
  have h := playLoop_reader_err flag hflag pre 0 rest
  constructor
  · simp [play, h.1]
  · simp [play, h.2]

/-- C8 witness: one good packet followed by a reader error plays out exactly
like a one-packet stream that ends naturally — finished, one frame written,
flushed. -/
theorem reader_error_like_eos_witness :
    play (fun _ => false)
        ([7].map (fun f => PacketRes.packet (some f) true)
          ++ PacketRes.err :: [PacketRes.packet (some 9) true])
      = some (true, [7], true)
    ∧ play (fun _ => false)
        ([7].map (fun f => PacketRes.packet (some f) true))
      = some (true, [7], true) :=
  reader_error_like_eos (fun _ => false) [7] [PacketRes.packet (some 9) true]
    (fun _ => rfl)

/-- C10: `Reader::new` builds `song_sectors` over the range
`first_track..last_track - 1`, which holds only `tracks - 2` entries, yet
unconditionally indexes entry 0 (and entry 1 when more than one track is
present); hence for every disc with fewer than four tracks — the single-track
case included — construction panics (`none`) instead of returning a
`Reader`. -/
theorem readerNew_panics_small_disc (first_track last_track : Nat)
    (lsn : Nat → Int) (h1 : 1 ≤ first_track) (h2 : first_track ≤ last_track)
    (h3 : last_track - first_track + 1 < 4) :
    readerNew first_track last_track lsn = none := by
  have hlen : ((List.range' first_track (last_track - 1 - first_track)).map
      (fun i => (lsn i, lsn (i + 1)))).length = last_track - 1 - first_track := by
    simp
  by_cases hc : last_track - first_track + 1 > 1
  · have hget : ((List.range' first_track (last_track - 1 - first_track)).map
        (fun i => (lsn i, lsn (i + 1))))[1]? = none :=
      List.getElem?_eq_none (by omega)
    simp only [readerNew, hc, if_true, hget]
    cases ((List.range' first_track (last_track - 1 - first_track)).map
        (fun i => (lsn i, lsn (i + 1))))[0]? <;> rfl
  · have hget : ((List.range' first_track (last_track - 1 - first_track)).map
        (fun i => (lsn i, lsn (i + 1))))[0]? = none :=
      List.getElem?_eq_none (by omega)
    simp only [readerNew, hc, if_false, hget]

/-- C10 witness: a single-track disc (first and last track both 1) makes
`Reader::new` panic instead of producing a reader. -/
theorem readerNew_panics_small_disc_witness :
    readerNew 1 1 (fun _ => 0) = none :=
  readerNew_panics_small_disc 1 1 (fun _ => 0) (by decide) (by decide)
    (by decide)

/-- C3: when the requested track `t` differs from the primary slot but
matches the cached secondary, the cache update drops the primary and promotes
the secondary record unchanged to the head; every other resulting slot is a
fresh look-ahead buffer for `t + 1` (so no new Track Buffer is created for
`t`); and since the promoted buffer has `ended` set, the subsequent
`read_cd` issues no hardware reads at all and leaves the cache untouched. -/
theorem promotion_no_rereads (tracks track : Nat) (sectors : List (Int × Int))
    (p s : Song) (f1 f2 : Nat → Bool)
    (hp : p.track_id ≠ track) (hs : s.track_id = track) (he : s.ended = true)
    (hsec : track + 1 < tracks → track < sectors.length) :
    (playStep tracks sectors [p, s] track).isSome = true
    ∧ ∀ out, playStep tracks sectors [p, s] track = some out →
        out.head? = some s
        ∧ (∀ x ∈ out.drop 1,
            x.track_id = track + 1 ∧ x.offset = 0 ∧ x.ended = false)
        ∧ readCd f1 f2 out = some (out, []) := by
  have hp' : ¬ track = p.track_id := fun hh => hp hh.symm
  by_cases h4 : track + 1 < tracks
  · obtain ⟨sec, hsg⟩ : ∃ sec, sectors[track]? = some sec := by
      have hlt := hsec h4
      cases hg : sectors[track]? with
      | none =>
          rw [List.getElem?_eq_none_iff] at hg
          omega
      | some sec => exact ⟨sec, rfl⟩
    have e : playStep tracks sectors [p, s] track
        = some [s, Song.new (track + 1) sec] := by
      simp [playStep, hp', hs, h4, hsg]
    refine ⟨by rw [e]; rfl, ?_⟩
    intro out hout
    rw [e] at hout
    injection hout with hout
    subst hout
    refine ⟨rfl, ?_, ?_⟩
    · intro x hx
      simp only [List.drop_succ_cons, List.drop_zero, List.mem_singleton] at hx
      subst hx
      exact ⟨rfl, rfl, rfl⟩
    · simp [readCd, he]
  · have e : playStep tracks sectors [p, s] track = some [s] := by
      simp [playStep, hp', hs, h4]
    refine ⟨by rw [e]; rfl, ?_⟩
    intro out hout
    rw [e] at hout
    injection hout with hout
    subst hout
    refine ⟨rfl, ?_, ?_⟩
    · intro x hx
      simp at hx
    · simp [readCd, he]

/-- C3 witness: with four tracks, primary on track 1 and a fully extracted
secondary for track 3, requesting `Play(3)` promotes the secondary and the
following `read_cd` issues no reads and changes nothing. -/
theorem promotion_no_rereads_witness :
    readCd (fun _ => false) (fun _ => false)
        [{ Song.new 3 (0, 0) with ended := true }]
      = some ([{ Song.new 3 (0, 0) with ended := true }], []) :=
  (((promotion_no_rereads 4 3 [(0, 0)] (Song.new 1 (0, 0))
      { Song.new 3 (0, 0) with ended := true } (fun _ => false) (fun _ => false)
      (by decide) (by decide) (by decide) (by omega)).2
    [{ Song.new 3 (0, 0) with ended := true }] (by decide)).2.2)

theorem playStep_length_le (tracks track : Nat) (sectors : List (Int × Int))
    (songs out : List Song) (hlen : songs.length ≤ 2)
    (h : playStep tracks sectors songs track = some out) :
    out.length ≤ 2 := by
  simp only [playStep] at h
  repeat' split at h
  any_goals exact Option.noConfusion h
  all_goals
    injection h with h
  all_goals
    subst h
  all_goals
    try simp only [List.length_append, List.length_drop, List.length_cons,
      List.length_nil]
  all_goals omega

theorem readCd_length (f1 f2 : Nat → Bool) (songs out : List Song)
    (reads : List (Int × Nat)) (h : readCd f1 f2 songs = some (out, reads)) :
    out.length = songs.length := by
  simp only [readCd] at h
  repeat' split at h
  any_goals exact Option.noConfusion h
  all_goals
    simp only [Option.some.injEq, Prod.mk.injEq] at h
  all_goals
    obtain ⟨h1, h2⟩ := h
  all_goals
    subst h1
  all_goals
    simp [List.length_set]

theorem handleStep_length (r r' : ReaderSt) (a : Action) (f1 f2 : Nat → Bool)
    (hlen : r.songs.length ≤ 2) (h : handleStep r a f1 f2 = some r') :
    r'.songs.length ≤ 2 := by
  cases a with
  | stop =>
      injection h with h
      subst h
      exact hlen
  | pause t =>
      injection h with h
      subst h
      exact hlen
  | play track =>
      simp only [handleStep] at h
      split at h
      · exact Option.noConfusion h
      next songs1 heq1 =>
        split at h
        · exact Option.noConfusion h
        next r2 heq2 =>
          injection h with h
          subst h
          obtain ⟨out, reads⟩ := r2
          have e1 := playStep_length_le r.tracks track r.song_sectors r.songs
            songs1 hlen heq1
          have e2 := readCd_length f1 f2 songs1 out reads heq2
          simpa [e2] using e1

theorem readerNew_songs_length (first_track last_track : Nat)
    (lsn : Nat → Int) (r : ReaderSt)
    (h : readerNew first_track last_track lsn = some r) :
    r.songs.length ≤ 2 := by
  simp only [readerNew] at h
  split at h
  · exact Option.noConfusion h
  next songs hsongs =>
    injection h with h
    subst h
    repeat' split at hsongs
    any_goals exact Option.noConfusion hsongs
    all_goals
      injection hsongs with hsongs
    all_goals
      subst hsongs
    all_goals simp

/-- C1: along every sequence of handled `Play`/`Pause`/`Stop` actions
starting from a successful `Reader::new`, the cached `songs` vector never
holds more than two Track Buffers. -/
theorem at_most_two_track_buffers (first_track last_track : Nat)
    (lsn : Nat → Int) (r : ReaderSt)
    (h : Reachable first_track last_track lsn r) :
    r.songs.length ≤ 2 := by
  induction h with
  | init r h0 => exact readerNew_songs_length first_track last_track lsn r h0
  | step r r' a f1 f2 hr hstep ih =>
      exact handleStep_length r r' a f1 f2 ih hstep

/-- C1 witness: the initial state of a four-track disc is reachable and holds
two Track Buffers. -/
theorem at_most_two_track_buffers_witness :
    (ReaderSt.mk 4 [(0, 0), (0, 0)]
        [Song.new 1 (0, 0), Song.new 2 (0, 0)]).songs.length ≤ 2 :=
  at_most_two_track_buffers 1 4 (fun _ => 0) _ (Reachable.init _ (by decide))

end RaspiCd
